import Mathlib

/-!
Shallow embedding of the scout-go telemetry SDK core, for checking the
specification against the code.

The embedding covers:
* the correlation-token codec (`ExtractIdsFromRequest`);
* the per-span-kind probabilistic sampler (`sampler.ShouldSample` /
  `getSampler`);
* the trace-identity derivation inlined in `StartTraceWithTimestamp`
  (base64 decode, `%032x` formatting, `trace.TraceIDFromHex`);
* the lifecycle state machine (`StartWithContext` / `shutdown` /
  `validateRequest`).

Go machine integers are modelled as `Nat` with explicit `% 2^64` where
overflow matters; Go float64 sampling rates are modelled as `ℚ`:
for a rate `r ∈ [0,1]` the Go expression `r * (1 << 63)` is exact
(multiplication by a power of two neither rounds nor overflows), and the
Go conversion `uint64(...)` truncates toward zero, i.e. takes the floor
of a nonnegative value.
-/

namespace ScoutGo

/-- Span kinds of the OpenTelemetry API (`trace.SpanKind`). -/
inductive SpanKind where
  | unspecified
  | internal
  | server
  | client
  | producer
  | consumer
deriving DecidableEq, Repr

/-- `uint64(value * (1 << 63))` from `getSampler`: for a nonnegative
rate the float product is exact and the Go conversion truncates,
so the bound is the floor of `r * 2^63`. -/
def rateToBound (r : ℚ) : ℕ := ⌊r * 2 ^ 63⌋₊

/-- The sampler's `traceIDUpperBounds` map, built by `getSampler` from
`conf.samplingRateMap` by applying `rateToBound` to every entry.
A Go map is modelled as a partial function `SpanKind → Option ℚ`. -/
def traceIDUpperBounds (m : SpanKind → Option ℚ) (k : SpanKind) : Option ℕ :=
  (m k).map rateToBound

/-- The bound lookup inside `sampler.ShouldSample`:
`bound, ok := s.traceIDUpperBounds[sp.Kind]; if !ok { bound =
s.traceIDUpperBounds[trace.SpanKindUnspecified] }`.  A lookup of a key
absent from a Go map yields the zero value, hence the final `.getD 0`. -/
def lookupBound (m : SpanKind → Option ℚ) (k : SpanKind) : ℕ :=
  match traceIDUpperBounds m k with
  | some b => b
  | none => (traceIDUpperBounds m .unspecified).getD 0

/-- `x := binary.BigEndian.Uint64(sp.TraceID[8:16]) >> 1`: the low 64
bits of the 128-bit trace identifier, shifted right by one. -/
def traceIDLowBits (tid : ℕ) : ℕ := tid % 2 ^ 64 / 2

/-- `sampler.ShouldSample`: record-and-sample iff `x < bound`. -/
def shouldSample (m : SpanKind → Option ℚ) (k : SpanKind) (tid : ℕ) : Bool :=
  traceIDLowBits tid < lookupBound m k

/-- The sampling decision as the spec's words describe it: the bound is
`round(rate * 2^63)` (nearest integer) rather than the code's floor.
Used only to compare the spec against the code. -/
def specShouldSample (m : SpanKind → Option ℚ) (k : SpanKind) (tid : ℕ) : Bool :=
  let rate : ℚ :=
    match m k with
    | some r => r
    | none => (m .unspecified).getD 0
  traceIDLowBits tid < ⌊rate * 2 ^ 63 + 1 / 2⌋₊

/-- The map built by `WithSamplingRate`: a single entry for the
unspecified kind. -/
def singleRateMap (r : ℚ) : SpanKind → Option ℚ :=
  fun k => if k = .unspecified then some r else none

/-- Go's `strings.Split` restricted to a one-character separator, written
as structural recursion on the character list so that it evaluates.
`strings.Split("", sep)` returns a one-element slice holding the empty
string, hence the base case `[[]]`. -/
def splitOnChar (sep : Char) : List Char → List (List Char)
  | [] => [[]]
  | c :: rest =>
    if c = sep then
      [] :: splitOnChar sep rest
    else
      match splitOnChar sep rest with
      | g :: gs => (c :: g) :: gs
      | [] => [[c]]

/-- `ExtractIdsFromRequest`: split the correlation token on `/`; with at
least two segments return segment 0 and segment 1 with no error,
otherwise return the zero-initialised strings with an error.  The third
component models the Go `error` return value. -/
def ExtractIdsFromRequest (requestDetails : String) :
    String × String × Option String :=
  let ids := splitOnChar '/' requestDetails.data
  match ids with
  | a :: b :: _ => (⟨a⟩, ⟨b⟩, none)
  | _ => ("", "", some "request does not contain tracer IDs")

/-- `splitOnChar` never returns an empty list of groups. -/
theorem splitOnChar_ne_nil (sep : Char) (cs : List Char) :
    splitOnChar sep cs ≠ [] := by
  cases cs with
  | nil => simp [splitOnChar]
  | cons c rest =>
    simp only [splitOnChar]
    split
    · simp
    · split <;> simp

/-! ### Base64 decoding and trace-identity derivation

`StartTraceWithTimestamp` contains the inlined derivation
```
data, _ := base64.StdEncoding.DecodeString(requestID)
hex := fmt.Sprintf("%032x", data)
tid, _ := trace.TraceIDFromHex(hex)
```
Both errors are discarded with the blank identifier.  The model below
follows Go's `encoding/base64` decoder for the standard encoding
(standard alphabet, `=` padding required): input is consumed in
four-symbol quantums; `\r`/`\n` are skipped wherever they occur (modelled
by filtering them out up front); a decode error keeps the bytes decoded
so far.  Byte truncation (`byte(val >> k)`) is modelled with `% 256`,
packaged as `Fin 256`. -/

/-- Value of a symbol of the standard base64 alphabet; `none` for `=`
and for every character outside the alphabet. -/
def b64Val (c : Char) : Option ℕ :=
  if 'A' ≤ c ∧ c ≤ 'Z' then some (c.toNat - 65)
  else if 'a' ≤ c ∧ c ≤ 'z' then some (c.toNat - 97 + 26)
  else if '0' ≤ c ∧ c ≤ '9' then some (c.toNat - 48 + 52)
  else if c = '+' then some 62
  else if c = '/' then some 63
  else none

/-- The 24-bit value of one quantum:
`val := v0 << 18 | v1 << 12 | v2 << 6 | v3`. -/
def quantumVal (v0 v1 v2 v3 : ℕ) : ℕ :=
  v0 * 2 ^ 18 + v1 * 2 ^ 12 + v2 * 2 ^ 6 + v3

/-- Go's `byte(n)` conversion: truncation to eight bits. -/
def mkByte (n : ℕ) : Fin 256 := ⟨n % 256, Nat.mod_lt _ (by norm_num)⟩

/-- `base64.StdEncoding.DecodeString` on a newline-free input: the
decoded bytes together with the error flag.  On error the bytes decoded
before the failure are returned, exactly as Go does (the caller in
`StartTraceWithTimestamp` ignores the flag).  A quantum ending in `=`
padding contributes its bytes even when trailing garbage follows the
padding (Go reports the error but has already written the bytes). -/
def decodeBlocks : List Char → List (Fin 256) × Bool
  | [] => ([], false)
  | c0 :: tail0 =>
    match b64Val c0 with
    | none => ([], true)
    | some v0 =>
      match tail0 with
      | [] => ([], true)
      | c1 :: tail1 =>
        match b64Val c1 with
        | none => ([], true)
        | some v1 =>
          match tail1 with
          | [] => ([], true)
          | c2 :: tail2 =>
            if c2 = '=' then
              match tail2 with
              | [] => ([], true)
              | c3 :: tail3 =>
                if c3 = '=' then
                  ([mkByte (quantumVal v0 v1 0 0 / 2 ^ 16)], !tail3.isEmpty)
                else ([], true)
            else
              match b64Val c2 with
              | none => ([], true)
              | some v2 =>
                match tail2 with
                | [] => ([], true)
                | c3 :: tail3 =>
                  if c3 = '=' then
                    ([mkByte (quantumVal v0 v1 v2 0 / 2 ^ 16),
                      mkByte (quantumVal v0 v1 v2 0 / 2 ^ 8)], !tail3.isEmpty)
                  else
                    match b64Val c3 with
                    | none => ([], true)
                    | some v3 =>
                      let r := decodeBlocks tail3
                      (mkByte (quantumVal v0 v1 v2 v3 / 2 ^ 16) ::
                        mkByte (quantumVal v0 v1 v2 v3 / 2 ^ 8) ::
                        mkByte (quantumVal v0 v1 v2 v3) :: r.1, r.2)

/-- `base64.StdEncoding.DecodeString(requestID)`: the decoder skips
`\r` and `\n` wherever they occur, modelled by filtering them first. -/
def decodeString (s : String) : List (Fin 256) × Bool :=
  decodeBlocks (s.data.filter fun c => !(c == '\n' || c == '\r'))

/-- The numeric value of a big-endian byte sequence. -/
def byteVal (data : List (Fin 256)) : ℕ :=
  data.foldl (fun acc b => acc * 256 + b.val) 0

/-- Lower-case hexadecimal digit, as produced by Go's `%x` verb. -/
def hexDigit (n : ℕ) : Char :=
  if n < 10 then Char.ofNat (48 + n) else Char.ofNat (87 + n)

/-- `%x` of a byte slice: two lower-case hex digits per byte. -/
def hexOfBytes (data : List (Fin 256)) : List Char :=
  data.flatMap fun b => [hexDigit (b.val / 16), hexDigit (b.val % 16)]

/-- `fmt.Sprintf("%032x", data)`: the hex digits of the bytes,
left-padded with `0` to a minimum width of 32. -/
def sprintf032x (data : List (Fin 256)) : List Char :=
  List.replicate (32 - (hexOfBytes data).length) '0' ++ hexOfBytes data

/-- Hex-digit value accepted by the otel hex decoder: `0`-`9` and
lower-case `a`-`f` only. -/
def hexVal (c : Char) : Option ℕ :=
  if '0' ≤ c ∧ c ≤ '9' then some (c.toNat - 48)
  else if 'a' ≤ c ∧ c ≤ 'f' then some (c.toNat - 87)
  else none

/-- Parse a hex string into its numeric value; `none` on any invalid
digit. -/
def parseHex (cs : List Char) : Option ℕ :=
  cs.foldl (fun acc c => acc.bind fun a => (hexVal c).map fun d => a * 16 + d)
    (some 0)

/-- `trace.TraceIDFromHex`: requires exactly 32 hex characters, valid
lower-case digits, and a nonzero value (an all-zero trace id is
invalid).  `none` models the error return; the caller discards it,
leaving the zero trace id, which makes the span context invalid so
that the tracer generates a fresh random identity. -/
def TraceIDFromHex (h : List Char) : Option ℕ :=
  if h.length = 32 then
    match parseHex h with
    | some n => if n = 0 then none else some n
    | none => none
  else none

/-- The trace-identity derivation inlined in `StartTraceWithTimestamp`:
base64-decode the requestId ignoring the error, format the bytes with
`%032x`, parse with `TraceIDFromHex` ignoring the error.  `some tid`
means the span context carries the derived 128-bit identity; `none`
means the zero (invalid) trace id is installed and the tracer falls
back to a freshly generated random identity. -/
def deriveTraceID (requestId : String) : Option ℕ :=
  TraceIDFromHex (sprintf032x (decodeString requestId).1)

/-! ### Lifecycle state machine

`StartWithContext`, `shutdown`, `Stop` and the supervisor goroutine,
modelled as a sequential transition system: every operation runs under
`stateMutex`, so an execution is a sequence of atomic operations.
Pipeline and supervisor activity is recorded in an event log. -/

/-- `appState` from the source: `idle`, `started`, `stopped`. -/
inductive AppState where
  | idle
  | started
  | stopped
deriving DecidableEq, Repr

/-- Observable actions of a lifecycle operation, in execution order. -/
inductive Action where
  | buildPipeline
  | setStarted
  | launchSupervisor
  | flushPipeline
  | releasePipeline
  | setStopped
deriving DecidableEq, Repr

/-- The process-wide mutable lifecycle state: `state`, whether `otlp`
is non-nil, the ordered event log, and the number of errors handed to
the logger (errors are logged, never returned). -/
structure Sys where
  state : AppState
  otlpSet : Bool
  log : List Action
  loggedErrors : ℕ
deriving DecidableEq, Repr

/-- Process start: `state = idle`, `otlp = nil`, nothing has run. -/
def initSys : Sys := ⟨.idle, false, [], 0⟩

/-- `StartWithContext` under `stateMutex` (option application aside): if
`state == started` return immediately; otherwise run `StartOTLP`
(`otlpOk = false` models a construction failure: the error is logged
and `otlp` stays nil), set `state = started`, launch one supervisor
goroutine. -/
def startOp (otlpOk : Bool) (s : Sys) : Sys :=
  if s.state = .started then s
  else
    { state := .started
      otlpSet := otlpOk
      log := s.log ++ [.buildPipeline, .setStarted, .launchSupervisor]
      loggedErrors := s.loggedErrors + (if otlpOk then 0 else 1) }

/-- `shutdown` under `stateMutex`: return if `!IsRunning()` (state is
not `started`); otherwise, when `otlp != nil`, run `OTLP.shutdown`
(`ForceFlush` then `Shutdown`, each failure logged and never returned),
then set `state = stopped`.  `flushErr`/`releaseErr` say whether flush
and release fail; they influence only the error log. -/
def shutdownOp (flushErr releaseErr : Bool) (s : Sys) : Sys :=
  if s.state = .started then
    { state := .stopped
      otlpSet := s.otlpSet
      log := s.log ++
        (if s.otlpSet then [.flushPipeline, .releasePipeline] else []) ++
        [.setStopped]
      loggedErrors := s.loggedErrors +
        (if s.otlpSet then
          (if flushErr then 1 else 0) + (if releaseErr then 1 else 0)
        else 0) }
  else s

/-- Lifecycle operations: an explicit `Start`/`Init` call, an explicit
`Stop` call, delivery of an OS termination signal to the supervisor,
and observation of context cancellation by the supervisor.  The last
three all invoke `shutdown`. -/
inductive Op where
  | start (otlpOk : Bool)
  | stop (flushErr releaseErr : Bool)
  | signal (flushErr releaseErr : Bool)
  | cancel (flushErr releaseErr : Bool)
deriving DecidableEq, Repr

/-- One atomic lifecycle operation. -/
def step (s : Sys) (op : Op) : Sys :=
  match op with
  | .start ok => startOp ok s
  | .stop fe re => shutdownOp fe re s
  | .signal fe re => shutdownOp fe re s
  | .cancel fe re => shutdownOp fe re s

/-- A sequential execution of lifecycle operations. -/
def run (s : Sys) (ops : List Op) : Sys := ops.foldl step s

/-- Whether an operation is a start call. -/
def Op.isStart : Op → Bool
  | .start _ => true
  | _ => false

/-! ### Recording calls and context values

`validateRequest` reads the correlation values out of the context and
checks the lifecycle state; `StartTraceWithTimestamp` is the single
recording entry point (`RecordError` and `RecordMetric` delegate to
it).  A context is modelled by the values present under the four keys
`validateRequest` consults: the plain-string and the typed form of the
session key and of the request key. -/

/-- The context values relevant to `validateRequest`: `none` models a
key absent from the context. -/
structure Ctx where
  strSessionVal : Option String
  typedSessionVal : Option String
  strRequestVal : Option String
  typedRequestVal : Option String
deriving DecidableEq, Repr

/-- `validateRequest`: under the read lock, error out when
`state == stopped`; otherwise read the session value under the
string-typed key then under the context-typed key (the second read
overwrites the first when present), same for the request value.  The
third component models the returned `error`. -/
def validateRequest (st : AppState) (ctx : Ctx) :
    String × String × Option String :=
  if st = .stopped then ("", "", some "scout worker stopped")
  else
    let sid0 := match ctx.strSessionVal with | some v => v | none => ""
    let sid := match ctx.typedSessionVal with | some v => v | none => sid0
    let rid0 := match ctx.strRequestVal with | some v => v | none => ""
    let rid := match ctx.typedRequestVal with | some v => v | none => rid0
    (sid, rid, none)

/-- What one recording call produces, at this repository's boundary:
whether `tracer.Start` was invoked (a span was created and handed to
the otel pipeline), the trace-identity override installed in the span
context (`none` when the identifier parse failed or no requestId was
present, in which case the tracer generates a fresh random identity),
and the session/request attributes set on the span. -/
structure SpanRecord where
  created : Bool
  traceIDOverride : Option ℕ
  sessionAttr : String
  requestAttr : String
deriving DecidableEq, Repr

/-- `StartTraceWithTimestamp`: calls `validateRequest` and discards its
error (`sessionID, requestID, _ :=`); when `requestID` is nonempty,
derives the trace identity and installs it; then unconditionally calls
`tracer.Start` and sets the session/request attributes. -/
def StartTraceWithTimestamp (st : AppState) (ctx : Ctx) : SpanRecord :=
  let v := validateRequest st ctx
  let sessionID := v.1
  let requestID := v.2.1
  let tidOverride := if requestID ≠ "" then deriveTraceID requestID else none
  { created := true
    traceIDOverride := tidOverride
    sessionAttr := sessionID
    requestAttr := requestID }

/-- `RecordMetric` opens its span through `StartTraceWithTimestamp`. -/
def RecordMetric (st : AppState) (ctx : Ctx) : SpanRecord :=
  StartTraceWithTimestamp st ctx

/-- `RecordError` opens its span through `StartTraceWithTimestamp`. -/
def RecordError (st : AppState) (ctx : Ctx) : SpanRecord :=
  StartTraceWithTimestamp st ctx

/-- Join segments with a separator character: the inverse image used to
state what `splitOnChar` returns on well-formed tokens. -/
def joinSeg (sep : Char) : List (List Char) → List Char
  | [] => []
  | [g] => g
  | g :: gs => g ++ sep :: joinSeg sep gs

/-! ### Lemmas about `splitOnChar` -/

theorem splitOnChar_of_not_mem {sep : Char} {cs : List Char}
    (h : sep ∉ cs) : splitOnChar sep cs = [cs] := by
  induction cs with
  | nil => simp [splitOnChar]
  | cons c rest ih =>
    have hc : c ≠ sep := fun hc => h (hc ▸ List.mem_cons_self c rest)
    have hrest : sep ∉ rest := fun hr => h (List.mem_cons_of_mem c hr)
    simp [splitOnChar, hc, ih hrest]

theorem splitOnChar_append {sep : Char} {g cs : List Char} {h : List Char}
    {t : List (List Char)} (hg : sep ∉ g)
    (hcs : splitOnChar sep cs = h :: t) :
    splitOnChar sep (g ++ cs) = (g ++ h) :: t := by
  induction g with
  | nil => simpa using hcs
  | cons c g ih =>
    have hc : c ≠ sep := fun hc => hg (hc ▸ List.mem_cons_self c g)
    have hg2 : sep ∉ g := fun hr => hg (List.mem_cons_of_mem c hr)
    simp [splitOnChar, hc, ih hg2]

theorem splitOnChar_joinSeg {sep : Char} {gs : List (List Char)}
    (hne : gs ≠ []) (hfree : ∀ g ∈ gs, sep ∉ g) :
    splitOnChar sep (joinSeg sep gs) = gs := by
  induction gs with
  | nil => exact absurd rfl hne
  | cons g gs ih =>
    cases gs with
    | nil =>
      simp only [joinSeg]
      exact splitOnChar_of_not_mem (hfree g (List.mem_cons_self g []))
    | cons g2 gs2 =>
      have hg : sep ∉ g := hfree g (List.mem_cons_self _ _)
      have hrest : ∀ x ∈ g2 :: gs2, sep ∉ x :=
        fun x hx => hfree x (List.mem_cons_of_mem g hx)
      have hrec : splitOnChar sep (joinSeg sep (g2 :: gs2)) = g2 :: gs2 :=
        ih (by simp) hrest
      have hsep : splitOnChar sep (sep :: joinSeg sep (g2 :: gs2)) =
          [] :: g2 :: gs2 := by
        simp [splitOnChar, hrec]
      have := @splitOnChar_append sep g (sep :: joinSeg sep (g2 :: gs2)) _ _ hg hsep
      simpa [joinSeg] using this

theorem splitOnChar_length_ge_two {sep : Char} {cs : List Char}
    (h : sep ∈ cs) : 2 ≤ (splitOnChar sep cs).length := by
  induction cs with
  | nil => simp at h
  | cons c rest ih =>
    by_cases hc : c = sep
    · have hlen : 1 ≤ (splitOnChar sep rest).length :=
        List.length_pos.mpr (splitOnChar_ne_nil sep rest)
      simp only [splitOnChar, if_pos hc, List.length_cons]
      omega
    · have hrest : sep ∈ rest := by
        rcases List.mem_cons.mp h with h1 | h1
        · exact absurd h1.symm hc
        · exact h1
      have h2 := ih hrest
      simp only [splitOnChar, if_neg hc]
      rcases heq : splitOnChar sep rest with _ | ⟨g, gs⟩
      · exact absurd heq (splitOnChar_ne_nil sep rest)
      · rw [heq] at h2
        simpa using h2

/-! ### Lemmas about the hex formatting pipeline -/

theorem hexVal_hexDigit {n : ℕ} (h : n < 16) : hexVal (hexDigit n) = some n := by
  interval_cases n <;> rfl

theorem hexOfBytes_length (data : List (Fin 256)) :
    (hexOfBytes data).length = 2 * data.length := by
  induction data with
  | nil => rfl
  | cons b rest ih => simp [hexOfBytes, List.flatMap_cons] at ih ⊢; omega

theorem parseHex_replicate_zero_append (k : ℕ) (h : List Char) :
    parseHex (List.replicate k '0' ++ h) = parseHex h := by
  induction k with
  | zero => rfl
  | succ k ih =>
    simp only [List.replicate_succ, List.cons_append, parseHex, List.foldl_cons]
    have h0 : ((some 0).bind fun a => (hexVal '0').map fun d => a * 16 + d) =
        some 0 := by
      have hv : hexVal '0' = some 0 := by decide
      simp [hv]
    rw [h0]
    exact ih

theorem parseHex_hexOfBytes_aux (data : List (Fin 256)) (a : ℕ) :
    List.foldl (fun acc c => acc.bind fun x => (hexVal c).map fun d => x * 16 + d)
      (some a) (hexOfBytes data) =
      some (List.foldl (fun acc b => acc * 256 + b.val) a data) := by
  induction data generalizing a with
  | nil => rfl
  | cons b rest ih =>
    have h1 : b.val / 16 < 16 := by omega
    have h2 : b.val % 16 < 16 := by omega
    simp only [hexOfBytes, List.flatMap_cons, List.cons_append, List.nil_append,
      List.foldl_cons] at ih ⊢
    simp only [Option.some_bind, hexVal_hexDigit h1, hexVal_hexDigit h2,
      Option.map_some']
    rw [show (a * 16 + b.val / 16) * 16 + b.val % 16 = a * 256 + b.val by omega]
    exact ih (a * 256 + b.val)

theorem parseHex_hexOfBytes (data : List (Fin 256)) :
    parseHex (hexOfBytes data) = some (byteVal data) :=
  parseHex_hexOfBytes_aux data 0

/-- `TraceIDFromHex ∘ sprintf032x`: succeeds exactly on at most sixteen
bytes with a nonzero value, and then returns that value. -/
theorem traceIDFromHex_sprintf032x (data : List (Fin 256)) :
    TraceIDFromHex (sprintf032x data) =
      if data.length ≤ 16 ∧ byteVal data ≠ 0 then some (byteVal data)
      else none := by
  have hlen := hexOfBytes_length data
  by_cases hle : data.length ≤ 16
  · have hwidth : (sprintf032x data).length = 32 := by
      simp only [sprintf032x, List.length_append, List.length_replicate]
      omega
    have hparse : parseHex (sprintf032x data) = some (byteVal data) := by
      rw [sprintf032x, parseHex_replicate_zero_append, parseHex_hexOfBytes]
    rw [TraceIDFromHex, if_pos hwidth, hparse]
    by_cases hz : byteVal data = 0
    · simp [hz, hle]
    · simp [hz, hle]
  · have hwidth : (sprintf032x data).length ≠ 32 := by
      simp only [sprintf032x, List.length_append, List.length_replicate]
      omega
    rw [TraceIDFromHex, if_neg hwidth, if_neg (by tauto)]

/-! ### Lemmas about the sampler -/

theorem lookupBound_singleRateMap (r : ℚ) (k : SpanKind) :
    lookupBound (singleRateMap r) k = rateToBound r := by
  by_cases hk : k = SpanKind.unspecified <;>
    simp [lookupBound, traceIDUpperBounds, singleRateMap, hk]

theorem traceIDLowBits_lt (tid : ℕ) : traceIDLowBits tid < 2 ^ 63 := by
  have : tid % 2 ^ 64 < 2 ^ 64 := Nat.mod_lt _ (by norm_num)
  simp only [traceIDLowBits]
  omega

/-! ### Claim theorems -/

/-- C1, counterexample.  The claim computes the bound as
`round(rate * 2^63)`; the code truncates (`uint64(value * (1 << 63))`).
At rate `3 / 2^64` for the unspecified kind the exact product is `1.5`:
the code's bound is `1` and the identity with low bits `2` (so `x = 1`)
is dropped, while the claim's rounded bound is `2` and predicts
record-and-sample.  The kind `server` is absent from the map, so this
also exercises the fallback to the unspecified entry. -/
theorem c1_round_vs_trunc_cex :
    shouldSample (singleRateMap (3 / 2 ^ 64)) SpanKind.server 2 = false ∧
    specShouldSample (singleRateMap (3 / 2 ^ 64)) SpanKind.server 2 = true := by
  have hfloor : (⌊(3 : ℚ) / 2 ^ 64 * 2 ^ 63⌋₊ : ℕ) = 1 := by
    rw [show (3 : ℚ) / 2 ^ 64 * 2 ^ 63 = 3 / 2 by ring, Nat.floor_eq_iff] <;> norm_num
  have hround : (⌊(3 : ℚ) / 2 ^ 64 * 2 ^ 63 + 1 / 2⌋₊ : ℕ) = 2 := by
    rw [show (3 : ℚ) / 2 ^ 64 * 2 ^ 63 + 1 / 2 = 2 by ring,
      show (2 : ℚ) = ((2 : ℕ) : ℚ) by norm_num, Nat.floor_natCast]
  have hserver : singleRateMap ((3 : ℚ) / 2 ^ 64) SpanKind.server = none := rfl
  have huns : singleRateMap ((3 : ℚ) / 2 ^ 64) SpanKind.unspecified =
      some (3 / 2 ^ 64) := rfl
  constructor
  · simp only [shouldSample, lookupBound_singleRateMap, rateToBound, traceIDLowBits,
      hfloor, decide_eq_false_iff_not, not_lt]
    norm_num
  · simp only [specShouldSample, hserver, huns, traceIDLowBits, Option.getD_some]
    rw [hround]
    norm_num

/-- C1, amended: the sampling decision is record-and-sample iff
`x < floor(rate(kind) * 2^63)` (truncation, not rounding), where the
rate is `samplingRateMap[kind]` with fallback to the unspecified entry;
rate `1.0` yields bound `2^63` and every identity is sampled, rate
`0.0` yields bound `0` and no identity is sampled. -/
theorem c1_sampling_decision (m : SpanKind → Option ℚ) (k : SpanKind) (tid : ℕ) :
    (∀ r, m k = some r →
      (shouldSample m k tid = true ↔ traceIDLowBits tid < ⌊r * 2 ^ 63⌋₊)) ∧
    (m k = none → ∀ r, m SpanKind.unspecified = some r →
      (shouldSample m k tid = true ↔ traceIDLowBits tid < ⌊r * 2 ^ 63⌋₊)) ∧
    ((m k = some 1 ∨ (m k = none ∧ m SpanKind.unspecified = some 1)) →
      shouldSample m k tid = true) ∧
    ((m k = some 0 ∨ (m k = none ∧ m SpanKind.unspecified = some 0)) →
      shouldSample m k tid = false) := by
  have h63 : (⌊((2 : ℚ) ^ 63)⌋₊ : ℕ) = 2 ^ 63 := by
    rw [show ((2 : ℚ) ^ 63) = ((2 ^ 63 : ℕ) : ℚ) by push_cast; ring, Nat.floor_natCast]
  have hx := traceIDLowBits_lt tid
  refine ⟨?_, ?_, ?_, ?_⟩
  · intro r hr
    simp only [shouldSample, lookupBound, traceIDUpperBounds, hr, Option.map_some',
      rateToBound, decide_eq_true_eq]
  · intro hk r hr
    simp only [shouldSample, lookupBound, traceIDUpperBounds, hk, hr,
      Option.map_some', Option.map_none', Option.getD_some, rateToBound,
      decide_eq_true_eq]
  · rintro (hr | ⟨hk, hr⟩)
    · simp only [shouldSample, lookupBound, traceIDUpperBounds, hr, Option.map_some',
        rateToBound, one_mul, h63, decide_eq_true_eq]
      exact hx
    · simp only [shouldSample, lookupBound, traceIDUpperBounds, hk, hr,
        Option.map_some', Option.map_none', Option.getD_some, rateToBound, one_mul,
        h63, decide_eq_true_eq]
      exact hx
  · rintro (hr | ⟨hk, hr⟩)
    · simp only [shouldSample, lookupBound, traceIDUpperBounds, hr, Option.map_some',
        rateToBound, zero_mul, Nat.floor_zero, decide_eq_false_iff_not, not_lt]
      exact Nat.zero_le _
    · simp only [shouldSample, lookupBound, traceIDUpperBounds, hk, hr,
        Option.map_some', Option.map_none', Option.getD_some, rateToBound, zero_mul,
        Nat.floor_zero, decide_eq_false_iff_not, not_lt]
      exact Nat.zero_le _

/-- C1, witness: at rate `1.0` for the unspecified kind, the concrete
identity `123` is sampled. -/
theorem c1_sampling_decision_witness :
    shouldSample (singleRateMap 1) SpanKind.unspecified 123 = true :=
  (c1_sampling_decision (singleRateMap 1) SpanKind.unspecified 123).2.2.1 (Or.inl rfl)

/-- C8: the sampling decision is stable — it depends on the trace
identity only through its low 64 bits, so re-evaluating the same
identity and kind always returns the same decision — and monotonic in
the rate: for `r1 < r2`, every identity sampled under rate `r1` is also
sampled under rate `r2`. -/
theorem c8_sampler_det_monotone (m : SpanKind → Option ℚ) (k : SpanKind)
    (tid tid2 : ℕ) (r1 r2 : ℚ) :
    (tid % 2 ^ 64 = tid2 % 2 ^ 64 → shouldSample m k tid = shouldSample m k tid2) ∧
    (r1 < r2 → shouldSample (singleRateMap r1) k tid = true →
      shouldSample (singleRateMap r2) k tid = true) := by
  constructor
  · intro h
    simp only [shouldSample, traceIDLowBits, h]
  · intro hlt hs
    have hb : rateToBound r1 ≤ rateToBound r2 :=
      Nat.floor_mono (mul_le_mul_of_nonneg_right hlt.le (by positivity))
    simp only [shouldSample, lookupBound_singleRateMap, decide_eq_true_eq] at hs ⊢
    omega

/-- C8, witness: identity `0` is sampled at rate `1/4`, hence by
monotonicity also at rate `1/2`. -/
theorem c8_sampler_det_monotone_witness :
    shouldSample (singleRateMap (1 / 2)) SpanKind.server 0 = true := by
  have h61 : (⌊(1 : ℚ) / 4 * 2 ^ 63⌋₊ : ℕ) = 2 ^ 61 := by
    rw [show (1 : ℚ) / 4 * 2 ^ 63 = ((2 ^ 61 : ℕ) : ℚ) by push_cast; ring,
      Nat.floor_natCast]
  have h14 : shouldSample (singleRateMap (1 / 4)) SpanKind.server 0 = true := by
    simp only [shouldSample, lookupBound_singleRateMap, rateToBound, traceIDLowBits,
      h61, decide_eq_true_eq]
    norm_num
  exact (c8_sampler_det_monotone (singleRateMap (1 / 4)) SpanKind.server 0 0
    (1 / 4) (1 / 2)).2 (by norm_num) h14

/-- C2, counterexample.  The claim says no sequence of operations ever
leaves `stopped`; but `StartWithContext` only returns early when the
state is `started`, so a start call issued after shutdown transitions
`stopped` back to `started`: the execution start–stop–start ends in
`started` although it passed through `stopped`. -/
theorem c2_no_restart_cex :
    (run initSys [Op.start true, Op.stop false false]).state = AppState.stopped ∧
    (run initSys [Op.start true, Op.stop false false, Op.start true]).state =
      AppState.started := by
  constructor <;> rfl

/-- C2, amended: once the state is `stopped`, stop calls, signal
delivery and cancellation (all of which invoke `shutdown`, a no-op when
the state is not `started`) leave it `stopped` forever; but a start
call does transition it back to `started`, because `StartWithContext`
short-circuits only on `started`. -/
theorem c2_stopped_stays (s : Sys) (ops : List Op) (ok : Bool) :
    (s.state = AppState.stopped → (∀ op ∈ ops, op.isStart = false) →
      (run s ops).state = AppState.stopped) ∧
    (s.state = AppState.stopped →
      (step s (Op.start ok)).state = AppState.started) := by
  constructor
  · intro hs hops
    induction ops generalizing s with
    | nil => exact hs
    | cons op rest ih =>
      have hop := hops op (List.mem_cons_self _ _)
      have hstep : (step s op).state = AppState.stopped := by
        cases op with
        | start ok2 => simp [Op.isStart] at hop
        | stop fe re => simp [step, shutdownOp, hs]
        | signal fe re => simp [step, shutdownOp, hs]
        | cancel fe re => simp [step, shutdownOp, hs]
      exact ih (step s op) hstep fun o ho => hops o (List.mem_cons_of_mem _ ho)
  · intro hs
    simp [step, startOp, hs]

/-- C2, witness: from a concrete stopped state, a stop call, a signal
and a cancellation leave the state `stopped`. -/
theorem c2_stopped_stays_witness :
    (run ⟨AppState.stopped, false, [], 0⟩
      [Op.stop true true, Op.signal false true, Op.cancel true false]).state =
      AppState.stopped :=
  (c2_stopped_stays ⟨AppState.stopped, false, [], 0⟩
    [Op.stop true true, Op.signal false true, Op.cancel true false] true).1
    rfl (by decide)

/-- C5: a start call in state `started` returns with the state
unchanged, and two sequential start calls from process start leave the
state `started` having constructed exactly one pipeline and launched
exactly one supervisor task. -/
theorem c5_start_idempotent (s : Sys) (ok ok1 ok2 : Bool) :
    (s.state = AppState.started → step s (Op.start ok) = s) ∧
    ((run initSys [Op.start ok1, Op.start ok2]).state = AppState.started ∧
      (run initSys [Op.start ok1, Op.start ok2]).log.count Action.buildPipeline = 1 ∧
      (run initSys [Op.start ok1, Op.start ok2]).log.count Action.launchSupervisor
        = 1) := by
  constructor
  · intro hs
    simp [step, startOp, hs]
  · cases ok1 <;> cases ok2 <;> refine ⟨rfl, rfl, rfl⟩

/-- C5, witness: a second start call on a concrete started state is the
identity. -/
theorem c5_start_idempotent_witness :
    step ⟨AppState.started, true, [], 0⟩ (Op.start false) =
      ⟨AppState.started, true, [], 0⟩ :=
  (c5_start_idempotent ⟨AppState.started, true, [], 0⟩ false false false).1 rfl

/-- `shutdown` is the identity whenever the state is not `started`. -/
theorem shutdownOp_not_started (fe re : Bool) {s : Sys}
    (h : s.state ≠ AppState.started) : shutdownOp fe re s = s := by
  simp [shutdownOp, h]

/-- C6: `shutdown` is a no-op when the state is not `started`;
otherwise it flushes the pipeline, then releases it, then sets the
state to `stopped` (in that order), flush and release failures are only
counted into the error log and never prevent the transition (the state
is `stopped` for every combination of failures, and the operation
returns normally — it is a total function with no error result), and a
second shutdown call is a no-op, so no second flush happens. -/
theorem c6_shutdown (s : Sys) (fe re fe2 re2 : Bool) :
    (s.state ≠ AppState.started → shutdownOp fe re s = s) ∧
    (s.state = AppState.started →
      (shutdownOp fe re s).state = AppState.stopped ∧
      (s.otlpSet = true → (shutdownOp fe re s).log = s.log ++
        [Action.flushPipeline, Action.releasePipeline, Action.setStopped]) ∧
      (shutdownOp fe re s).loggedErrors = s.loggedErrors +
        (if s.otlpSet then
          (if fe then 1 else 0) + (if re then 1 else 0) else 0) ∧
      shutdownOp fe2 re2 (shutdownOp fe re s) = shutdownOp fe re s) := by
  constructor
  · exact shutdownOp_not_started fe re
  · intro hs
    refine ⟨by simp [shutdownOp, hs], ?_, by simp [shutdownOp, hs], ?_⟩
    · intro hotlp
      simp [shutdownOp, hs, hotlp]
    · have h1 : (shutdownOp fe re s).state = AppState.stopped := by
        simp [shutdownOp, hs]
      exact shutdownOp_not_started fe2 re2 (by simp [h1])

/-- C6, witness: shutting down a concrete started state with a failing
flush still flushes, releases and reaches `stopped`. -/
theorem c6_shutdown_witness :
    (shutdownOp true false ⟨AppState.started, true, [], 0⟩).state =
      AppState.stopped ∧
    (shutdownOp true false ⟨AppState.started, true, [], 0⟩).log =
      [Action.flushPipeline, Action.releasePipeline, Action.setStopped] := by
  have h := (c6_shutdown ⟨AppState.started, true, [], 0⟩ true false false false).2 rfl
  exact ⟨h.1, by simpa using h.2.1 rfl⟩

/-- C3, counterexample.  The claim says recording calls made while the
state is `stopped` short-circuit and create no span; but
`StartTraceWithTimestamp` discards the `validateRequest` error and
calls `tracer.Start` unconditionally, so a span is created even when
the state is `stopped`. -/
theorem c3_stopped_shortcircuit_cex :
    (StartTraceWithTimestamp AppState.stopped ⟨none, none, none, none⟩).created =
      true := rfl

/-- C3, amended: while the state is `stopped`, `validateRequest` does
raise the worker-stopped error and returns empty identifiers, but every
recording call (`StartTraceWithTimestamp`, `RecordMetric`,
`RecordError`) discards that error and still creates a span — with
empty session/request attributes and no trace-identity override — and
hands it to the tracer; recording after shutdown is not suppressed. -/
theorem c3_stopped_recording (ctx : Ctx) :
    validateRequest AppState.stopped ctx = ("", "", some "scout worker stopped") ∧
    StartTraceWithTimestamp AppState.stopped ctx = ⟨true, none, "", ""⟩ ∧
    RecordMetric AppState.stopped ctx = ⟨true, none, "", ""⟩ ∧
    RecordError AppState.stopped ctx = ⟨true, none, "", ""⟩ := by
  refine ⟨rfl, rfl, rfl, rfl⟩

/-- C4, counterexample.  The claim says an undecodable requestId yields
`none` and never an identity built from partially decoded bytes; but
for `"abcd!"` the base64 decoder fails after decoding the quantum
`abcd` to the bytes `0x69 0xb7 0x1d`, the decode error is discarded,
and the derived identity is `0x69b71d = 6928157` — exactly the value of
the partially decoded bytes, not `none`. -/
theorem c4_undecodable_cex :
    (decodeString "abcd!").2 = true ∧
    (decodeString "abcd!").1 = [mkByte 105, mkByte 183, mkByte 29] ∧
    deriveTraceID "abcd!" = some 6928157 ∧
    byteVal (decodeString "abcd!").1 = 6928157 := by
  refine ⟨by decide, by decide, by decide, by decide⟩

/-- C4, amended: the derivation is a pure function of the requestId and
never generates randomness; it yields the value of the (possibly
partially) decoded bytes, zero-padded to 128 bits, whenever those bytes
number at most sixteen and are not all zero, and yields `none` (forcing
the caller's fallback to a freshly generated random identity) exactly
when the decoded bytes exceed sixteen — the hex string is then wider
than 32 digits — or are all zero, in particular when decoding fails
before any complete four-character group. -/
theorem c4_derive_characterization (s : String) :
    deriveTraceID s =
      (if (decodeString s).1.length ≤ 16 ∧ byteVal (decodeString s).1 ≠ 0 then
        some (byteVal (decodeString s).1)
      else none) :=
  traceIDFromHex_sprintf032x (decodeString s).1

/-- C7: splitting the correlation token on `/` with at least two
segments returns segment 0 and segment 1 unchanged with no error,
extra segments ignored; and the parse succeeds exactly when the input
contains a `/` (with a one-character separator, fewer than two segments
means no separator occurs, which covers the empty input). -/
theorem c7_parse_token (a b : List Char) (rest : List (List Char)) (s : String) :
    ((∀ g ∈ a :: b :: rest, '/' ∉ g) →
      ExtractIdsFromRequest ⟨joinSeg '/' (a :: b :: rest)⟩ = (⟨a⟩, ⟨b⟩, none)) ∧
    ((ExtractIdsFromRequest s).2.2 = none ↔ '/' ∈ s.data) := by
  constructor
  · intro hfree
    have hsplit : splitOnChar '/' (joinSeg '/' (a :: b :: rest)) = a :: b :: rest :=
      splitOnChar_joinSeg (by simp) hfree
    simp only [ExtractIdsFromRequest]
    rw [hsplit]
  · constructor
    · intro hnone
      by_contra hmem
      have hsingle := @splitOnChar_of_not_mem '/' s.data hmem
      simp [ExtractIdsFromRequest, hsingle] at hnone
    · intro hmem
      have h2 := @splitOnChar_length_ge_two '/' s.data hmem
      simp only [ExtractIdsFromRequest]
      rcases hsp : splitOnChar '/' s.data with _ | ⟨x, _ | ⟨y, t⟩⟩
      · exact absurd hsp (splitOnChar_ne_nil _ _)
      · rw [hsp] at h2; simp at h2
      · rfl

/-- C7, witness: `"a/b/c"` parses to `("a", "b")` with the third
segment ignored and no error. -/
theorem c7_parse_token_witness :
    ExtractIdsFromRequest "a/b/c" = ("a", "b", none) := by
  have h := (c7_parse_token ['a'] ['b'] [['c']] "a/b/c").1 (by decide)
  simpa using h

/-- C9: when the state is not `stopped` and a propagation key carries a
value under both its plain-string form and its typed context-key form,
`validateRequest` returns the value stored under the typed form — it is
read last and overwrites the string-keyed value. -/
theorem c9_typed_key_precedence (st : AppState) (ctx : Ctx) (a a0 b b0 : String) :
    st ≠ AppState.stopped →
    ctx.strSessionVal = some a0 → ctx.typedSessionVal = some a →
    ctx.strRequestVal = some b0 → ctx.typedRequestVal = some b →
    validateRequest st ctx = (a, b, none) := by
  intro h1 h2 h3 h4 h5
  simp [validateRequest, h1, h2, h3, h4, h5]

/-- C9, witness: with both key forms populated, the typed-key values
`"s1"`/`"r1"` win over the string-keyed `"s0"`/`"r0"`. -/
theorem c9_typed_key_precedence_witness :
    validateRequest AppState.started ⟨some "s0", some "s1", some "r0", some "r1"⟩ =
      ("s1", "r1", none) :=
  c9_typed_key_precedence AppState.started
    ⟨some "s0", some "s1", some "r0", some "r1"⟩ "s1" "s0" "r1" "r0"
    (by decide) rfl rfl rfl rfl

/-- C10: whenever the correlation-token parse returns an error, both
returned identifier strings are empty — no partial result accompanies
an error. -/
theorem c10_error_empty_ids (s : String) :
    (ExtractIdsFromRequest s).2.2 ≠ none →
    (ExtractIdsFromRequest s).1 = "" ∧ (ExtractIdsFromRequest s).2.1 = "" := by
  simp only [ExtractIdsFromRequest]
  rcases splitOnChar '/' s.data with _ | ⟨x, _ | ⟨y, t⟩⟩ <;> simp

/-- C10, witness: `"qwerty"` fails to parse and both identifiers come
back empty. -/
theorem c10_error_empty_ids_witness :
    (ExtractIdsFromRequest "qwerty").1 = "" ∧
    (ExtractIdsFromRequest "qwerty").2.1 = "" :=
  c10_error_empty_ids "qwerty" (by decide)

end ScoutGo
